import Mathlib

/-!
Verification of the Bybit perpetual-futures scanner bot.

Shallow embedding of the repository's core logic:
 - `scanner.py` — the detector pipeline (`analyze_volume_spike`,
   `analyze_price_movement`, `analyze_volatility`, `analyze_breakout`),
   the symbol filter (`should_scan_symbol`), and the scan cycle
   (`scan_symbols`: filtering, the 50-symbol cap, per-symbol processing,
   state-store overwrite, and the alert send loop with its counter).
 - `telegram_ui.py` — the subscriber registry (`handle_message` symbol-add
   state machine, the `remove_` branch of `handle_watchlist_action`) and
   alert fan-out to UI users (`send_alert_to_ui_users`).
 - `config.py` — the default configuration constants.

Python floats are embedded as rationals (`ℚ`).  Python exceptions are
embedded explicitly: raw JSON-ish field values are `PyVal`, `float(·)`
conversion, `dict[k]` access, list indexing and division are functions
into `Except Unit`, and each detector is the `try/except`-wrapped version
of an exception-transparent body (`...E` definitions), mirroring the
`try: ... except Exception: ... return None` shape of the source.
-/

namespace BybitBot

/-- A raw Python value as it appears in a ticker dict or kline row:
either a value `float(·)` converts to a rational (numbers and numeric
strings), or one on which `float(·)` raises (`nonNum`). -/
inductive PyVal where
  | num (q : ℚ)
  | nonNum
deriving DecidableEq, Repr

/-- Python `float(v)`: succeeds exactly on numeric values. -/
def pyFloat : PyVal → Except Unit ℚ
  | .num q => .ok q
  | .nonNum => .error ()

/-- Python float division: raises `ZeroDivisionError` on a zero divisor. -/
def pydiv (a b : ℚ) : Except Unit ℚ :=
  if b = 0 then .error () else .ok (a / b)

/-- Python `d[k]` on an optional field: raises `KeyError` when absent. -/
def dictGet : Option PyVal → Except Unit PyVal
  | some v => .ok v
  | none => .error ()

/-- Python `l[i]`: raises `IndexError` out of range. -/
def listGet {α : Type} (l : List α) (i : ℕ) : Except Unit α :=
  match l.get? i with
  | some x => .ok x
  | none => .error ()

/-- The surrounding `try: ... except Exception: ...; return None` of each
detector: an exception in the body becomes a `None` result. -/
def tryDetect {α : Type} (body : Except Unit (Option α)) : Option α :=
  match body with
  | .ok r => r
  | .error _ => none

/-! Default configuration constants from `config.py`. -/

/-- config.py `VOLUME_SPIKE_THRESHOLD` default 2.0 (multiplier). -/
def VOLUME_SPIKE_THRESHOLD : ℚ := 2

/-- config.py `PRICE_PUMP_THRESHOLD` default 5.0 (percent). -/
def PRICE_PUMP_THRESHOLD : ℚ := 5

/-- config.py `PRICE_DUMP_THRESHOLD` default -5.0 (percent). -/
def PRICE_DUMP_THRESHOLD : ℚ := -5

/-- config.py `VOLATILITY_THRESHOLD` default 10.0 (percent). -/
def VOLATILITY_THRESHOLD : ℚ := 10

/-- config.py `BREAKOUT_LOOKBACK_PERIODS` default 20. -/
def BREAKOUT_LOOKBACK_PERIODS : ℕ := 20

/-- config.py `MIN_VOLUME_24H` default 1000000. -/
def MIN_VOLUME_24H : ℚ := 1000000

/-- config.py `MIN_PRICE` default 0.001, as the normalized rational
1/1000. -/
def MIN_PRICE : ℚ := ⟨1, 1000, by decide, by decide⟩

/-- The raw `MIN_PRICE` literal is the rational one over one thousand. -/
theorem MIN_PRICE_eq : MIN_PRICE = 1 / 1000 := by
  have h := Rat.num_div_den MIN_PRICE
  rw [show MIN_PRICE.num = 1 from rfl, show MIN_PRICE.den = 1000 from rfl] at h
  rw [← h]
  norm_num

/-- config.py `MAX_PRICE` default 100000. -/
def MAX_PRICE : ℚ := 100000

/-- A ticker dict as consumed by the scanner: `symbol` is the mandatory
exchange-provided key; `lastPrice` and `volume24h` are raw optional
fields (`.get(...)` defaults apply where the source uses them). -/
structure TickerD where
  symbol : String
  lastPrice : Option PyVal
  volume24h : Option PyVal
deriving DecidableEq, Repr

/-- A raw kline row as returned by the exchange client
(`[startTime, open, high, low, close, volume, turnover]`,
indices 2/3/4 = high/low/close). -/
abbrev Kline : Type := List PyVal

/-- The alert value produced by a detector: a tagged variant carrying the
fields the source puts in each alert dict. -/
inductive Alert where
  | volume_spike (symbol : String) (current_volume previous_volume change_percent : ℚ)
  | price_pump (symbol : String) (current_price previous_price change_percent : ℚ)
  | price_dump (symbol : String) (current_price previous_price change_percent : ℚ)
  | volatility_spike (symbol : String) (current_volatility avg_volatility : ℚ)
  | breakout_up (symbol : String) (current_price resistance_level breakout_strength : ℚ)
  | breakout_down (symbol : String) (current_price support_level breakout_strength : ℚ)
deriving DecidableEq, Repr

/-- Body of `BybitScanner.analyze_volume_spike` (scanner.py lines 146-168),
with exceptions transparent. `current_data.get('volume24h', 0)` defaults a
missing field to `0`; a zero previous volume abstains before dividing. -/
def analyzeVolumeSpikeE (symbol : String) (current_data previous_data : TickerD) :
    Except Unit (Option Alert) := do
  let current_volume ← pyFloat (current_data.volume24h.getD (.num 0))
  let previous_volume ← pyFloat (previous_data.volume24h.getD (.num 0))
  if previous_volume = 0 then
    return none
  let volume_change := (← pydiv (current_volume - previous_volume) previous_volume) * 100
  if volume_change ≥ VOLUME_SPIKE_THRESHOLD * 100 then
    return some (.volume_spike symbol current_volume previous_volume volume_change)
  return none

/-- `BybitScanner.analyze_volume_spike`: the body under its catch-all
`except`, returning `None` on any exception. -/
def analyze_volume_spike (symbol : String) (current_data previous_data : TickerD) :
    Option Alert :=
  tryDetect (analyzeVolumeSpikeE symbol current_data previous_data)

/-- The volume-spike step of `scan_symbols` (scanner.py lines 375-379): the
detector runs only when the symbol already has a State Store entry. -/
def volumeStep (store : String → Option TickerD) (ticker : TickerD) : Option Alert :=
  match store ticker.symbol with
  | some prev => analyze_volume_spike ticker.symbol ticker prev
  | none => none

/-- Body of `BybitScanner.analyze_price_movement` (scanner.py lines 170-203).
Klines are newest first; compares close of row 0 with close of row 4
(`kline[.][4]`), pump checked before dump. -/
def analyzePriceMovementE (symbol : String) (klines : List Kline) :
    Except Unit (Option Alert) := do
  if klines.length < 5 then
    return none
  let current_price ← pyFloat (← listGet (← listGet klines 0) 4)
  let price_5min_ago ← pyFloat (← listGet (← listGet klines 4) 4)
  let price_change := (← pydiv (current_price - price_5min_ago) price_5min_ago) * 100
  if price_change ≥ PRICE_PUMP_THRESHOLD then
    return some (.price_pump symbol current_price price_5min_ago price_change)
  else if price_change ≤ PRICE_DUMP_THRESHOLD then
    return some (.price_dump symbol current_price price_5min_ago price_change)
  else
    return none

/-- `BybitScanner.analyze_price_movement`: body under its catch-all `except`. -/
def analyze_price_movement (symbol : String) (klines : List Kline) : Option Alert :=
  tryDetect (analyzePriceMovementE symbol klines)

/-- A for-loop that computes `f` on each element and appends, any raised
exception propagating out: the accumulation pattern of `analyze_volatility`
and of the `highs`/`lows` comprehensions of `analyze_breakout`. -/
def mapExcept {α β : Type} (f : α → Except Unit β) : List α → Except Unit (List β)
  | [] => .ok []
  | a :: as => do
    let b ← f a
    let bs ← mapExcept f as
    return b :: bs

/-- The per-candle `(high - low) / close * 100` computation of
`analyze_volatility` (scanner.py lines 213-218). -/
def rangePct (kline : Kline) : Except Unit ℚ := do
  let high ← pyFloat (← listGet kline 2)
  let low ← pyFloat (← listGet kline 3)
  let close ← pyFloat (← listGet kline 4)
  return (← pydiv (high - low) close) * 100

/-- Body of `BybitScanner.analyze_volatility` (scanner.py lines 205-233).
The average over `volatilities[1:]` is computed before the threshold check
and carried in the alert for context only. -/
def analyzeVolatilityE (symbol : String) (klines : List Kline) :
    Except Unit (Option Alert) := do
  if klines.length < 10 then
    return none
  let volatilities ← mapExcept rangePct (klines.take 10)
  let current_volatility ← listGet volatilities 0
  let tail := volatilities.drop 1
  let avg_volatility ← pydiv tail.sum tail.length
  if current_volatility ≥ VOLATILITY_THRESHOLD then
    return some (.volatility_spike symbol current_volatility avg_volatility)
  return none

/-- `BybitScanner.analyze_volatility`: body under its catch-all `except`. -/
def analyze_volatility (symbol : String) (klines : List Kline) : Option Alert :=
  tryDetect (analyzeVolatilityE symbol klines)

/-- Python `max(l)`: raises on an empty list. -/
def pymax (l : List ℚ) : Except Unit ℚ :=
  match l with
  | [] => .error ()
  | x :: xs => .ok (xs.foldl max x)

/-- Python `min(l)`: raises on an empty list. -/
def pymin (l : List ℚ) : Except Unit ℚ :=
  match l with
  | [] => .error ()
  | x :: xs => .ok (xs.foldl min x)

/-- Body of `BybitScanner.analyze_breakout` (scanner.py lines 235-268).
Resistance and support are the max high / min low over the first
`BREAKOUT_LOOKBACK_PERIODS` rows; the 0.1 percent buffer comparisons are
strict, breakout-up checked first. -/
def analyzeBreakoutE (symbol : String) (klines : List Kline) (current_price : ℚ) :
    Except Unit (Option Alert) := do
  if klines.length < BREAKOUT_LOOKBACK_PERIODS then
    return none
  let highs ← mapExcept (fun k => do pyFloat (← listGet k 2)) (klines.take BREAKOUT_LOOKBACK_PERIODS)
  let lows ← mapExcept (fun k => do pyFloat (← listGet k 3)) (klines.take BREAKOUT_LOOKBACK_PERIODS)
  let resistance ← pymax highs
  let support ← pymin lows
  if current_price > resistance * (1001 / 1000) then
    let strength := (← pydiv (current_price - resistance) resistance) * 100
    return some (.breakout_up symbol current_price resistance strength)
  else if current_price < support * (999 / 1000) then
    let strength := (← pydiv (support - current_price) support) * 100
    return some (.breakout_down symbol current_price support strength)
  else
    return none

/-- `BybitScanner.analyze_breakout`: body under its catch-all `except`. -/
def analyze_breakout (symbol : String) (klines : List Kline) (current_price : ℚ) :
    Option Alert :=
  tryDetect (analyzeBreakoutE symbol klines current_price)

/-- Body of `BybitScanner.should_scan_symbol` (scanner.py lines 270-286):
`ticker.get(...)` defaults missing fields to `0` before conversion. -/
def shouldScanSymbolE (ticker : TickerD) : Except Unit Bool := do
  let volume_24h ← pyFloat (ticker.volume24h.getD (.num 0))
  let price ← pyFloat (ticker.lastPrice.getD (.num 0))
  if volume_24h < MIN_VOLUME_24H then
    return false
  if price < MIN_PRICE ∨ price > MAX_PRICE then
    return false
  return true

/-- `BybitScanner.should_scan_symbol`: a conversion error makes the filter
reject the ticker (`except ... return False`). -/
def should_scan_symbol (ticker : TickerD) : Bool :=
  match shouldScanSymbolE ticker with
  | .ok b => b
  | .error _ => false

/-- The State Store (`self.previous_data`): symbol to last-seen ticker. -/
abbrev Store : Type := String → Option TickerD

/-- Overwrite of one State Store entry (`self.previous_data[symbol] = ticker`,
scanner.py line 401). -/
def storeWrite (store : Store) (symbol : String) (ticker : TickerD) : Store :=
  fun s => if s = symbol then some ticker else store s

/-- Body of one iteration of the per-symbol loop of `scan_symbols`
(scanner.py lines 371-404), inside its per-symbol `try`: volume-spike
against the stored snapshot, then — when the fetched kline window is
non-empty — price movement, volatility and (after converting
`ticker['lastPrice']`) breakout, then the unconditional store overwrite.
An exception leaves the store unwritten (the write is inside the `try`). -/
def processTickerE (getKlines : String → List Kline) (store : Store) (ticker : TickerD) :
    Except Unit (Store × List Alert) := do
  let symbol := ticker.symbol
  let volAlerts := (volumeStep store ticker).toList
  let klines := getKlines symbol
  let techAlerts ←
    if klines.isEmpty then
      pure ([] : List Alert)
    else do
      let priceAlerts := (analyze_price_movement symbol klines).toList
      let volatilityAlerts := (analyze_volatility symbol klines).toList
      let current_price ← pyFloat (← dictGet ticker.lastPrice)
      let breakoutAlerts := (analyze_breakout symbol klines current_price).toList
      pure (priceAlerts ++ volatilityAlerts ++ breakoutAlerts)
  return (storeWrite store symbol ticker, volAlerts ++ techAlerts)

/-- The per-symbol loop of `scan_symbols` over the capped filtered tickers
(scanner.py lines 371-408): a per-symbol exception is caught and that
symbol skipped (`continue`), the cycle moving on with the store unchanged. -/
def scanLoop (getKlines : String → List Kline) :
    List TickerD → Store → Store × List Alert
  | [], store => (store, [])
  | t :: ts, store =>
    match processTickerE getKlines store t with
    | .ok (store1, as) =>
      let rest := scanLoop getKlines ts store1
      (rest.1, as ++ rest.2)
    | .error _ => scanLoop getKlines ts store

/-- The scan phase of `BybitScanner.scan_symbols` (scanner.py lines 356-408):
filter the fetched tickers with `should_scan_symbol`, cap to the first 50,
and run the per-symbol loop against the State Store. -/
def scanPhase (getKlines : String → List Kline) (tickers : List TickerD) (store : Store) :
    Store × List Alert :=
  scanLoop getKlines ((tickers.filter should_scan_symbol).take 50) store

/-- One delivery performed by the alert send loop: the broadcast
`send_telegram_message` attempt (with its outcome) or a message to one
interactive UI user via `send_alert_to_ui_users`. -/
inductive Delivery where
  | broadcast (alert : Alert) (success : Bool)
  | toUser (user : ℕ) (alert : Alert)
deriving DecidableEq, Repr

/-- `TelegramUI.send_alert_to_ui_users` (telegram_ui.py lines 1043-1056):
one send per member of `self.authorized_users`, with no further filtering. -/
def send_alert_to_ui_users (authorized_users : List ℕ) (alert : Alert) : List Delivery :=
  authorized_users.map (fun u => Delivery.toUser u alert)

/-- The alert send loop of `scan_symbols` (scanner.py lines 410-433):
for each aggregated alert, attempt the broadcast send (outcome given by the
transport oracle `sendOk`, indexed by position), increment `alerts_sent`
only on broadcast success, then send to every authorized UI user. Returns
the final counter and the list of deliveries. -/
def sendAlertsLoop (sendOk : ℕ → Bool) (authorized_users : List ℕ) :
    List Alert → ℕ → ℕ → ℕ × List Delivery
  | [], _, alerts_sent => (alerts_sent, [])
  | alert :: rest, i, alerts_sent =>
    let success := sendOk i
    let alerts_sent1 := if success then alerts_sent + 1 else alerts_sent
    let uiDeliveries := send_alert_to_ui_users authorized_users alert
    let tail := sendAlertsLoop sendOk authorized_users rest (i + 1) alerts_sent1
    (tail.1, Delivery.broadcast alert success :: uiDeliveries ++ tail.2)

/-- Scanner state relevant to the claims: the State Store and the
`alerts_sent` counter (`BybitScanner.__init__`, scanner.py lines 32-34). -/
structure ScannerState where
  previous_data : Store
  alerts_sent : ℕ

/-- `BybitScanner.scan_symbols` as a cycle-level state transformer: empty
ticker fetch returns early; otherwise scan phase then send loop. -/
def scan_symbols (getKlines : String → List Kline) (sendOk : ℕ → Bool)
    (authorized_users : List ℕ) (tickers : List TickerD) (s : ScannerState) :
    ScannerState × List Alert × List Delivery :=
  if tickers.isEmpty then (s, [], [])
  else
    let scanned := scanPhase getKlines tickers s.previous_data
    let sent := sendAlertsLoop sendOk authorized_users scanned.2 0 s.alerts_sent
    (⟨scanned.1, sent.1⟩, scanned.2, sent.2)

/-- The `alerts_sent` accessor surfaced by the `/status` endpoint
(app.py lines 174-181: `'alerts_sent': scanner.alerts_sent`). -/
def status_alerts_sent (s : ScannerState) : ℕ := s.alerts_sent

/-- A reply sent back to the interacting subscriber by the UI handlers. -/
inductive UIReply where
  | symbolAdded (s : String)
  | alreadyInWatchlist (s : String)
  | invalidSymbol
  | defaultEcho (s : String)
  | symbolRemoved (s : String)
  | symbolNotFound (s : String)
deriving DecidableEq, Repr

/-- Python `str.upper()`: character-wise upper-casing. -/
def pyUpper (s : String) : String := ⟨s.data.map Char.toUpper⟩

/-- Python `str.strip()`: removal of leading and trailing whitespace. -/
def pyStrip (s : String) : String :=
  ⟨((s.data.dropWhile Char.isWhitespace).reverse.dropWhile Char.isWhitespace).reverse⟩

/-- The mutable `TelegramUI` registry state the subscriber claims touch:
`user_sessions[uid]['state']` (with `none` for both a missing entry and an
explicit `None`) and `user_preferences[uid]['watchlist']` (missing entry
read as the empty list). -/
structure UIState where
  sessions : ℕ → Option String
  prefs : ℕ → List String

/-- Point update of a per-user map. -/
def updAt {α : Type} (f : ℕ → α) (u : ℕ) (v : α) : ℕ → α :=
  fun x => if x = u then v else f x

/-- `TelegramUI.handle_message` (telegram_ui.py lines 753-799): the free-text
handler. The text is upper-cased and stripped; when the session state is
`'adding_symbol'` a valid candidate (truthy and longer than 2) is inserted
into the watchlist if absent — reported as already present otherwise — and
the state is cleared; an invalid candidate only draws a rejection reply.
Outside the `'adding_symbol'` state the message is echoed. -/
def handle_message (st : UIState) (user_id : ℕ) (text : String) : UIState × UIReply :=
  let message_text := pyStrip (pyUpper text)
  if st.sessions user_id = some "adding_symbol" then
    if message_text ≠ "" ∧ message_text.length > 2 then
      let watchlist := st.prefs user_id
      if message_text ∉ watchlist then
        (⟨updAt st.sessions user_id none,
          updAt st.prefs user_id (watchlist ++ [message_text])⟩,
         .symbolAdded message_text)
      else
        (⟨updAt st.sessions user_id none, st.prefs⟩, .alreadyInWatchlist message_text)
    else
      (st, .invalidSymbol)
  else
    (st, .defaultEcho message_text)

/-- The `remove_` branch of `TelegramUI.handle_watchlist_action`
(telegram_ui.py lines 730-748): remove the symbol's first occurrence when
present, otherwise report not-found and leave the registry unchanged. -/
def handle_watchlist_remove (st : UIState) (user_id : ℕ) (symbol : String) :
    UIState × UIReply :=
  let watchlist := st.prefs user_id
  if symbol ∈ watchlist then
    (⟨st.sessions, updAt st.prefs user_id (watchlist.erase symbol)⟩, .symbolRemoved symbol)
  else
    (st, .symbolNotFound symbol)

/-- C4: with a previous snapshot whose 24h volume is a positive number, the
volume-spike detector fires iff the percent change reaches the threshold
times 100; a zero or absent previous volume yields no alert, and an
absent previous snapshot means the detector is not even invoked — in all
cases no exception reaches the caller. -/
theorem volume_spike_fires_iff_threshold :
    (∀ (symbol : String) (cd pd : TickerD) (cv pv : ℚ),
        cd.volume24h = some (PyVal.num cv) →
        pd.volume24h = some (PyVal.num pv) → 0 < pv →
        ((analyze_volume_spike symbol cd pd).isSome ↔
          (cv - pv) / pv * 100 ≥ VOLUME_SPIKE_THRESHOLD * 100)) ∧
    (∀ (symbol : String) (cd pd : TickerD),
        pd.volume24h = some (PyVal.num 0) ∨ pd.volume24h = none →
        analyze_volume_spike symbol cd pd = none) ∧
    (∀ (store : Store) (t : TickerD),
        store t.symbol = none → volumeStep store t = none) := by
  refine ⟨?_, ?_, ?_⟩
  · intro symbol cd pd cv pv hc hp hpos
    simp only [analyze_volume_spike, analyzeVolumeSpikeE, hc, hp, Option.getD_some,
      pyFloat, pydiv, tryDetect, Bind.bind, Except.bind, Pure.pure, Except.pure,
      hpos.ne', if_false]
    split_ifs with hcond <;> simp [hcond]
  · intro symbol cd pd hzero
    rcases hzero with h | h <;>
      cases hv : cd.volume24h.getD (PyVal.num 0) <;>
        simp [analyze_volume_spike, analyzeVolumeSpikeE, h, hv, pyFloat, pydiv, tryDetect,
          Bind.bind, Except.bind, Pure.pure, Except.pure]
  · intro store t hnone
    simp [volumeStep, hnone]

/-- Witness for C4 at the spec's own example: previous volume 1,000,000 and
current volume 3,000,000 is a 200 percent change and fires. -/
theorem volume_spike_fires_iff_threshold_witness :
    (analyze_volume_spike "BTCUSDT" ⟨"BTCUSDT", none, some (.num 3000000)⟩
        ⟨"BTCUSDT", none, some (.num 1000000)⟩).isSome := by
  have h := volume_spike_fires_iff_threshold.1 "BTCUSDT"
    ⟨"BTCUSDT", none, some (.num 3000000)⟩ ⟨"BTCUSDT", none, some (.num 1000000)⟩
    3000000 1000000 rfl rfl (by norm_num)
  exact h.mpr (by norm_num [VOLUME_SPIKE_THRESHOLD])

/-- C9: each of the four detectors is total at its public interface — the
wrapped function returns the body's result when the body returns, and
`none` when the body raises, so no exception propagates to the caller for
any input, malformed fields included. -/
theorem detectors_never_propagate_exceptions :
    ∀ (symbol : String) (cd pd : TickerD) (klines : List Kline) (price : ℚ),
      (analyzeVolumeSpikeE symbol cd pd = .error () →
        analyze_volume_spike symbol cd pd = none) ∧
      (∀ r, analyzeVolumeSpikeE symbol cd pd = .ok r →
        analyze_volume_spike symbol cd pd = r) ∧
      (analyzePriceMovementE symbol klines = .error () →
        analyze_price_movement symbol klines = none) ∧
      (∀ r, analyzePriceMovementE symbol klines = .ok r →
        analyze_price_movement symbol klines = r) ∧
      (analyzeVolatilityE symbol klines = .error () →
        analyze_volatility symbol klines = none) ∧
      (∀ r, analyzeVolatilityE symbol klines = .ok r →
        analyze_volatility symbol klines = r) ∧
      (analyzeBreakoutE symbol klines price = .error () →
        analyze_breakout symbol klines price = none) ∧
      (∀ r, analyzeBreakoutE symbol klines price = .ok r →
        analyze_breakout symbol klines price = r) := by
  intro symbol cd pd klines price
  refine ⟨fun h => ?_, fun r h => ?_, fun h => ?_, fun r h => ?_,
    fun h => ?_, fun r h => ?_, fun h => ?_, fun r h => ?_⟩ <;>
    simp [analyze_volume_spike, analyze_price_movement, analyze_volatility,
      analyze_breakout, tryDetect, h]

/-- Witness for C9: a snapshot whose `volume24h` is a non-numeric string
makes the body raise, and the public detector returns `None`. -/
theorem detectors_never_propagate_exceptions_witness :
    analyze_volume_spike "X" ⟨"X", none, some .nonNum⟩ ⟨"X", none, none⟩ = none := by
  exact (detectors_never_propagate_exceptions "X" ⟨"X", none, some .nonNum⟩
    ⟨"X", none, none⟩ [] 0).1 rfl

/-- A fully numeric candle, in the exchange's row layout
`[startTime, open, high, low, close, volume]`. -/
structure CandleQ where
  startTime : ℚ
  openPrice : ℚ
  highPrice : ℚ
  lowPrice : ℚ
  closePrice : ℚ
  volume : ℚ
deriving DecidableEq, Repr

/-- The raw kline row of a numeric candle. -/
def CandleQ.toRow (c : CandleQ) : Kline :=
  [.num c.startTime, .num c.openPrice, .num c.highPrice, .num c.lowPrice,
   .num c.closePrice, .num c.volume]

/-- C6: on a window of at least 5 candles, newest first, with a nonzero
close 5 candles back, the detector compares the newest close with the
5th-newest close; it fires Pump iff the percent change reaches the pump
threshold and Dump iff it reaches the (negative) dump threshold, pump
checked first so the two can never both fire; with fewer than 5 candles it
produces nothing. -/
theorem price_movement_pump_dump_spec :
    (∀ (symbol : String) (candles : List CandleQ) (c0 c4 : CandleQ),
        candles[0]? = some c0 → candles[4]? = some c4 →
        c4.closePrice ≠ 0 →
        (analyze_price_movement symbol (candles.map CandleQ.toRow) =
            some (.price_pump symbol c0.closePrice c4.closePrice
              ((c0.closePrice - c4.closePrice) / c4.closePrice * 100)) ↔
          (c0.closePrice - c4.closePrice) / c4.closePrice * 100 ≥ PRICE_PUMP_THRESHOLD) ∧
        (analyze_price_movement symbol (candles.map CandleQ.toRow) =
            some (.price_dump symbol c0.closePrice c4.closePrice
              ((c0.closePrice - c4.closePrice) / c4.closePrice * 100)) ↔
          (c0.closePrice - c4.closePrice) / c4.closePrice * 100 ≤ PRICE_DUMP_THRESHOLD)) ∧
    (∀ (symbol : String) (klines : List Kline), klines.length < 5 →
        analyze_price_movement symbol klines = none) := by
  constructor
  · intro symbol candles c0 c4 h0 h4 hc4
    have h5 : 4 < candles.length := by
      rcases List.getElem?_eq_some.mp h4 with ⟨h, -⟩
      exact h
    have hlen : ¬ (candles.map CandleQ.toRow).length < 5 := by
      simp only [List.length_map]
      omega
    have hg0 : (candles.map CandleQ.toRow).get? 0 = some c0.toRow := by
      simp [List.get?_eq_getElem?, List.getElem?_map, h0]
    have hg4 : (candles.map CandleQ.toRow).get? 4 = some c4.toRow := by
      simp [List.get?_eq_getElem?, List.getElem?_map, h4]
    simp only [analyze_price_movement, analyzePriceMovementE, tryDetect, listGet, hg0, hg4,
      CandleQ.toRow, pyFloat, pydiv, hc4, if_false, Bind.bind, Except.bind,
      Pure.pure, Except.pure, hlen, if_neg, List.get?]
    split_ifs with hpump hdump
    · simp_all [PRICE_PUMP_THRESHOLD, PRICE_DUMP_THRESHOLD]
      linarith
    · simp_all [PRICE_PUMP_THRESHOLD, PRICE_DUMP_THRESHOLD]
    · simp_all [PRICE_PUMP_THRESHOLD, PRICE_DUMP_THRESHOLD]
  · intro symbol klines hlen
    simp [analyze_price_movement, analyzePriceMovementE, tryDetect, hlen,
      Pure.pure, Except.pure]

/-- Evaluation of the per-candle range mapping on fully numeric candles
with nonzero closes. -/
theorem mapM_rangePct (cs : List CandleQ) (h : ∀ c ∈ cs, c.closePrice ≠ 0) :
    mapExcept rangePct (cs.map CandleQ.toRow) =
      .ok (cs.map (fun c => (c.highPrice - c.lowPrice) / c.closePrice * 100)) := by
  induction cs with
  | nil => rfl
  | cons c cs ih =>
    have hc : c.closePrice ≠ 0 := h c (by simp)
    have ih2 := ih (fun x hx => h x (by simp [hx]))
    simp [mapExcept, rangePct, CandleQ.toRow, listGet, pyFloat, pydiv, hc, ih2,
      Bind.bind, Except.bind, Pure.pure, Except.pure]

/-- The volatility detector on a well-formed window fires exactly when the
newest candle's range percent reaches the threshold. -/
theorem volatility_isSome_iff (symbol : String) (candles : List CandleQ) (c0 : CandleQ)
    (hlen : 10 ≤ candles.length) (hwf : ∀ c ∈ candles.take 10, c.closePrice ≠ 0)
    (h0 : candles[0]? = some c0) :
    ((analyze_volatility symbol (candles.map CandleQ.toRow)).isSome ↔
      (c0.highPrice - c0.lowPrice) / c0.closePrice * 100 ≥ VOLATILITY_THRESHOLD) := by
  have hnotlt : ¬ (candles.map CandleQ.toRow).length < 10 := by
    simp only [List.length_map]
    omega
  have hmap : (candles.map CandleQ.toRow).take 10 = (candles.take 10).map CandleQ.toRow :=
    (List.map_take CandleQ.toRow candles 10).symm
  have hmapM := mapM_rangePct (candles.take 10) hwf
  have htake0 : (candles.take 10)[0]? = some c0 := by
    rw [List.getElem?_take, if_pos (by norm_num), h0]
  have hvols0 :
      ((candles.take 10).map (fun c => (c.highPrice - c.lowPrice) / c.closePrice * 100))[0]? =
        some ((c0.highPrice - c0.lowPrice) / c0.closePrice * 100) := by
    rw [List.getElem?_map, htake0]
    rfl
  have hlen10 : (candles.take 10).length = 10 := by
    rw [List.length_take]
    omega
  have hdlen :
      (((candles.take 10).map
          (fun c => (c.highPrice - c.lowPrice) / c.closePrice * 100)).drop 1).length = 9 := by
    rw [List.length_drop, List.length_map, hlen10]
  simp only [analyze_volatility, analyzeVolatilityE, tryDetect, hnotlt, if_false, hmap,
    hmapM, Bind.bind, Except.bind, Pure.pure, Except.pure, listGet,
    List.get?_eq_getElem?, hvols0, hdlen, pydiv]
  norm_num
  split_ifs with hcond <;> simp [hcond]

/-- C7: on any window of at least 10 well-formed candles the volatility
detector fires exactly when the newest candle's range percent reaches the
threshold — an absolute comparison: the baseline average of the other nine
candles never affects firing, so two windows agreeing on the newest candle
fire identically. -/
theorem volatility_fires_on_current_only :
    ∀ (symbol : String) (cA cB : List CandleQ) (c0 : CandleQ),
      10 ≤ cA.length → (∀ c ∈ cA.take 10, c.closePrice ≠ 0) → cA[0]? = some c0 →
      ((analyze_volatility symbol (cA.map CandleQ.toRow)).isSome ↔
        (c0.highPrice - c0.lowPrice) / c0.closePrice * 100 ≥ VOLATILITY_THRESHOLD) ∧
      (10 ≤ cB.length → (∀ c ∈ cB.take 10, c.closePrice ≠ 0) → cB[0]? = some c0 →
        (analyze_volatility symbol (cA.map CandleQ.toRow)).isSome =
          (analyze_volatility symbol (cB.map CandleQ.toRow)).isSome) := by
  intro symbol cA cB c0 hlA hwA h0A
  refine ⟨volatility_isSome_iff symbol cA c0 hlA hwA h0A, fun hlB hwB h0B => ?_⟩
  rw [Bool.eq_iff_iff]
  exact (volatility_isSome_iff symbol cA c0 hlA hwA h0A).trans
    (volatility_isSome_iff symbol cB c0 hlB hwB h0B).symm

/-- Witness for C7: a 10-candle and an 11-candle window sharing a newest
candle of 1100 percent range both fire. -/
theorem volatility_fires_on_current_only_witness :
    (analyze_volatility "BTCUSDT"
        ((List.replicate 10 (⟨0, 0, 11, 0, 1, 0⟩ : CandleQ)).map CandleQ.toRow)).isSome ∧
      (analyze_volatility "BTCUSDT"
          ((List.replicate 10 (⟨0, 0, 11, 0, 1, 0⟩ : CandleQ)).map CandleQ.toRow)).isSome =
        (analyze_volatility "BTCUSDT"
          ((List.replicate 11 (⟨0, 0, 11, 0, 1, 0⟩ : CandleQ)).map CandleQ.toRow)).isSome := by
  have h := volatility_fires_on_current_only "BTCUSDT"
    (List.replicate 10 (⟨0, 0, 11, 0, 1, 0⟩ : CandleQ))
    (List.replicate 11 (⟨0, 0, 11, 0, 1, 0⟩ : CandleQ)) ⟨0, 0, 11, 0, 1, 0⟩
    (by simp) (by intro c hc; simp_all) (by simp)
  refine ⟨h.1.mpr (by norm_num [VOLATILITY_THRESHOLD]), ?_⟩
  exact h.2 (by simp) (by intro c hc; simp_all) (by simp)

/-- Extraction of the `highs` comprehension of `analyze_breakout` on fully
numeric candles. -/
theorem mapExcept_highs (cs : List CandleQ) :
    mapExcept (fun k => do pyFloat (← listGet k 2)) (cs.map CandleQ.toRow) =
      .ok (cs.map fun c => c.highPrice) := by
  induction cs with
  | nil => rfl
  | cons c cs ih =>
    have hc : (do pyFloat (← listGet (CandleQ.toRow c) 2) : Except Unit ℚ) =
        .ok c.highPrice := rfl
    simp only [mapExcept, List.map_cons, Bind.bind, Except.bind,
      Pure.pure, Except.pure] at ih hc ⊢
    rw [hc, ih]

/-- Extraction of the `lows` comprehension of `analyze_breakout` on fully
numeric candles. -/
theorem mapExcept_lows (cs : List CandleQ) :
    mapExcept (fun k => do pyFloat (← listGet k 3)) (cs.map CandleQ.toRow) =
      .ok (cs.map fun c => c.lowPrice) := by
  induction cs with
  | nil => rfl
  | cons c cs ih =>
    have hc : (do pyFloat (← listGet (CandleQ.toRow c) 3) : Except Unit ℚ) =
        .ok c.lowPrice := rfl
    simp only [mapExcept, List.map_cons, Bind.bind, Except.bind,
      Pure.pure, Except.pure] at ih hc ⊢
    rw [hc, ih]

/-- A left fold by `max` dominates its starting value. -/
theorem foldl_max_ge_init (l : List ℚ) : ∀ a : ℚ, a ≤ l.foldl max a := by
  induction l with
  | nil => intro a; exact le_refl a
  | cons x xs ih =>
    intro a
    exact le_trans (le_max_left a x) (ih (max a x))

/-- A left fold by `min` is dominated by its starting value. -/
theorem foldl_min_le_init (l : List ℚ) : ∀ a : ℚ, l.foldl min a ≤ a := by
  induction l with
  | nil => intro a; exact le_refl a
  | cons x xs ih =>
    intro a
    exact le_trans (ih (min a x)) (min_le_left a x)

/-- A left fold by `min` of positives from a positive start stays positive. -/
theorem foldl_min_pos (l : List ℚ) :
    ∀ a : ℚ, 0 < a → (∀ x ∈ l, 0 < x) → 0 < l.foldl min a := by
  induction l with
  | nil => intro a ha _; exact ha
  | cons x xs ih =>
    intro a ha hall
    exact ih (min a x) (lt_min ha (hall x (by simp))) (fun y hy => hall y (by simp [hy]))

/-- C5: on a window of at least `BREAKOUT_LOOKBACK_PERIODS` well-formed
candles with resistance `R` (max high) and support `S` (min low) over the
lookback prefix, BreakoutUp fires iff the price strictly exceeds
`R * 1.001` and BreakoutDown iff it is strictly below `S * 0.999` — a price
exactly at a buffered level does not fire — and either reported strength
is strictly positive. -/
theorem breakout_strict_buffer_spec :
    ∀ (symbol : String) (candles : List CandleQ) (price R S : ℚ),
      BREAKOUT_LOOKBACK_PERIODS ≤ candles.length →
      (∀ c ∈ candles.take BREAKOUT_LOOKBACK_PERIODS,
        0 < c.lowPrice ∧ c.lowPrice ≤ c.highPrice) →
      pymax ((candles.take BREAKOUT_LOOKBACK_PERIODS).map fun c => c.highPrice) = .ok R →
      pymin ((candles.take BREAKOUT_LOOKBACK_PERIODS).map fun c => c.lowPrice) = .ok S →
      ((analyze_breakout symbol (candles.map CandleQ.toRow) price =
          some (.breakout_up symbol price R ((price - R) / R * 100)) ↔
        price > R * (1001 / 1000)) ∧
      (analyze_breakout symbol (candles.map CandleQ.toRow) price =
          some (.breakout_down symbol price S ((S - price) / S * 100)) ↔
        price < S * (999 / 1000)) ∧
      (price > R * (1001 / 1000) → 0 < (price - R) / R * 100) ∧
      (price < S * (999 / 1000) → 0 < (S - price) / S * 100)) := by
  intro symbol candles price R S hlen hwf hR hS
  obtain ⟨c0, rest, hcons⟩ :
      ∃ c0 rest, candles.take BREAKOUT_LOOKBACK_PERIODS = c0 :: rest := by
    cases h : candles.take BREAKOUT_LOOKBACK_PERIODS with
    | nil =>
      exfalso
      have hlt := congrArg List.length h
      rw [List.length_take] at hlt
      simp only [List.length_nil] at hlt
      simp only [BREAKOUT_LOOKBACK_PERIODS] at hlen hlt
      omega
    | cons a l => exact ⟨a, l, rfl⟩
  have hc0 : 0 < c0.lowPrice ∧ c0.lowPrice ≤ c0.highPrice :=
    hwf c0 (by rw [hcons]; exact List.mem_cons_self c0 rest)
  have hR2 := hR
  have hS2 := hS
  rw [hcons, List.map_cons] at hR2 hS2
  simp only [pymax, Except.ok.injEq] at hR2
  simp only [pymin, Except.ok.injEq] at hS2
  have hRge : c0.highPrice ≤ R := by
    rw [← hR2]
    exact foldl_max_ge_init _ _
  have hSle : S ≤ c0.lowPrice := by
    rw [← hS2]
    exact foldl_min_le_init _ _
  have hSpos : 0 < S := by
    rw [← hS2]
    refine foldl_min_pos _ _ hc0.1 ?_
    intro x hx
    rcases List.mem_map.mp hx with ⟨c, hcmem, hxeq⟩
    subst hxeq
    exact (hwf c (by rw [hcons]; exact List.mem_cons_of_mem _ hcmem)).1
  have hRpos : 0 < R := lt_of_lt_of_le (lt_of_lt_of_le hc0.1 hc0.2) hRge
  have hSR : S ≤ R := le_trans hSle (le_trans hc0.2 hRge)
  have hnotlt : ¬ (candles.map CandleQ.toRow).length < BREAKOUT_LOOKBACK_PERIODS := by
    rw [List.length_map]
    omega
  have hmap : (candles.map CandleQ.toRow).take BREAKOUT_LOOKBACK_PERIODS
      = (candles.take BREAKOUT_LOOKBACK_PERIODS).map CandleQ.toRow :=
    (List.map_take _ _ _).symm
  have hres : analyze_breakout symbol (candles.map CandleQ.toRow) price =
      (if price > R * (1001 / 1000) then
        some (.breakout_up symbol price R ((price - R) / R * 100))
      else if price < S * (999 / 1000) then
        some (.breakout_down symbol price S ((S - price) / S * 100))
      else none) := by
    simp only [analyze_breakout, analyzeBreakoutE, hmap]
    rw [mapExcept_highs, mapExcept_lows]
    simp only [tryDetect, hnotlt, if_false, hR, hS, pydiv, hRpos.ne', hSpos.ne',
      Bind.bind, Except.bind, Pure.pure, Except.pure]
    split_ifs <;> rfl
  have hSbuf : S * (999 / 1000) < S := by nlinarith [hSpos]
  have hRbuf : R < R * (1001 / 1000) := by nlinarith [hRpos]
  refine ⟨?_, ?_, fun hup => ?_, fun hdown => ?_⟩
  · rw [hres]
    split_ifs with hup hdown
    · simp_all
    · simp_all
    · simp_all
  · rw [hres]
    split_ifs with hup hdown
    · simp_all
      linarith
    · simp_all
    · simp_all
  · have h1 : 0 < price - R := by linarith
    exact mul_pos (div_pos h1 hRpos) (by norm_num)
  · have h1 : 0 < S - price := by linarith
    exact mul_pos (div_pos h1 hSpos) (by norm_num)

set_option maxRecDepth 4000 in
/-- Witness for C5 at the spec's example: resistance 110, price 110.2
fires BreakoutUp with positive strength; the buffered level itself is
110.11. -/
theorem breakout_strict_buffer_spec_witness :
    analyze_breakout "BTCUSDT"
        ((List.replicate 20 (⟨0, 0, 110, 100, 105, 0⟩ : CandleQ)).map CandleQ.toRow)
        (551 / 5) =
      some (.breakout_up "BTCUSDT" (551 / 5) 110 ((551 / 5 - 110) / 110 * 100)) := by
  have h := breakout_strict_buffer_spec "BTCUSDT"
    (List.replicate 20 (⟨0, 0, 110, 100, 105, 0⟩ : CandleQ)) (551 / 5) 110 100
    (by decide) (by decide) (by rfl) (by rfl)
  exact h.1.mpr (by norm_num)

/-- Witness for C6 at the spec's example: closes 105,104,103,102,100 newest
first with pump threshold 5 fire a Pump of exactly 5 percent. -/
theorem price_movement_pump_dump_spec_witness :
    analyze_price_movement "ETHUSDT"
      (([105, 104, 103, 102, 100] : List ℚ).map
        (fun c => CandleQ.toRow ⟨0, 0, 0, 0, c, 0⟩)) =
      some (.price_pump "ETHUSDT" 105 100 ((105 - 100) / 100 * 100)) := by
  have h := (price_movement_pump_dump_spec.1 "ETHUSDT"
    (([105, 104, 103, 102, 100] : List ℚ).map (fun c => ⟨0, 0, 0, 0, c, 0⟩))
    ⟨0, 0, 0, 0, 105, 0⟩ ⟨0, 0, 0, 0, 100, 0⟩ rfl rfl (by norm_num)).1
  have hfires := h.mpr (by norm_num [PRICE_PUMP_THRESHOLD])
  simpa [List.map_map, Function.comp] using hfires


/-- C3 counterexample: a subscriber awaiting a symbol who sends the
too-short candidate "ab" gets the rejection reply, but the session state is
still `'adding_symbol'` afterwards — it is not reset to Idle, so the next
free-text message is again interpreted as a symbol candidate. -/
theorem invalid_symbol_leaves_awaiting_state :
    (handle_message ⟨fun u => if u = 5 then some "adding_symbol" else none, fun _ => []⟩
        5 "ab").2 = UIReply.invalidSymbol ∧
      (handle_message ⟨fun u => if u = 5 then some "adding_symbol" else none, fun _ => []⟩
          5 "ab").1.sessions 5 = some "adding_symbol" := by
  constructor <;> rfl

/-- C3 (amended): in the AwaitingSymbol state, invalid input (empty or of
length at most 2 after normalization) draws a rejection reply and leaves
the registry entirely unchanged — in particular the state stays
AwaitingSymbol rather than being reset to Idle. -/
theorem invalid_symbol_rejected_state_unchanged :
    ∀ (st : UIState) (uid : ℕ) (text : String),
      st.sessions uid = some "adding_symbol" →
      ¬(pyStrip (pyUpper text) ≠ "" ∧ (pyStrip (pyUpper text)).length > 2) →
      handle_message st uid text = (st, .invalidSymbol) := by
  intro st uid text hs hinv
  unfold handle_message
  rw [if_pos hs, if_neg hinv]

/-- Witness for the amended C3 at the counterexample input. -/
theorem invalid_symbol_rejected_state_unchanged_witness :
    handle_message ⟨fun u => if u = 6 then some "adding_symbol" else none, fun _ => []⟩
        6 "ab" =
      (⟨fun u => if u = 6 then some "adding_symbol" else none, fun _ => []⟩,
        .invalidSymbol) := by
  exact invalid_symbol_rejected_state_unchanged
    ⟨fun u => if u = 6 then some "adding_symbol" else none, fun _ => []⟩ 6 "ab"
    rfl (by decide)

/-- C8: watchlist mutation is idempotent — adding a symbol already present
leaves the watchlist (hence its size) unchanged and is reported as already
present, and removing an absent symbol leaves the registry unchanged and
reports not-found, neither raising. -/
theorem watchlist_mutation_idempotent :
    (∀ (st : UIState) (uid : ℕ) (text : String),
      st.sessions uid = some "adding_symbol" →
      pyStrip (pyUpper text) ≠ "" → (pyStrip (pyUpper text)).length > 2 →
      pyStrip (pyUpper text) ∈ st.prefs uid →
      ((handle_message st uid text).1.prefs uid).length = (st.prefs uid).length ∧
      (handle_message st uid text).1.prefs uid = st.prefs uid ∧
      (handle_message st uid text).2 = .alreadyInWatchlist (pyStrip (pyUpper text))) ∧
    (∀ (st : UIState) (uid : ℕ) (symbol : String),
      symbol ∉ st.prefs uid →
      handle_watchlist_remove st uid symbol = (st, .symbolNotFound symbol)) := by
  constructor
  · intro st uid text hs hne hlen hmem
    unfold handle_message
    rw [if_pos hs, if_pos ⟨hne, hlen⟩, if_neg (by simp [hmem])]
    exact ⟨rfl, rfl, rfl⟩
  · intro st uid symbol habs
    unfold handle_watchlist_remove
    rw [if_neg habs]

/-- Witness for C8: re-adding "BTCUSDT" to a watchlist already holding it
keeps the size at 1 and reports already-present; removing "ETHUSDT" from
that watchlist reports not-found and changes nothing. -/
theorem watchlist_mutation_idempotent_witness :
    (((handle_message
          ⟨fun u => if u = 7 then some "adding_symbol" else none,
           fun u => if u = 7 then ["BTCUSDT"] else []⟩ 7 "btcusdt").1.prefs 7).length =
        (["BTCUSDT"] : List String).length ∧
      (handle_message
          ⟨fun u => if u = 7 then some "adding_symbol" else none,
           fun u => if u = 7 then ["BTCUSDT"] else []⟩ 7 "btcusdt").2 =
        .alreadyInWatchlist "BTCUSDT") ∧
      handle_watchlist_remove
          ⟨fun _ => none, fun u => if u = 7 then ["BTCUSDT"] else []⟩ 7 "ETHUSDT" =
        (⟨fun _ => none, fun u => if u = 7 then ["BTCUSDT"] else []⟩,
          .symbolNotFound "ETHUSDT") := by
  have hadd := watchlist_mutation_idempotent.1
    ⟨fun u => if u = 7 then some "adding_symbol" else none,
     fun u => if u = 7 then ["BTCUSDT"] else []⟩ 7 "btcusdt"
    rfl (by decide) (by decide) (by decide)
  have hrem := watchlist_mutation_idempotent.2
    ⟨fun _ => none, fun u => if u = 7 then ["BTCUSDT"] else []⟩ 7 "ETHUSDT"
    (by decide)
  exact ⟨⟨by simpa using hadd.1, by simpa using hadd.2.2⟩, hrem⟩


/-- The number of successful broadcast outcomes among `n` consecutive
transport attempts starting at index `i`. -/
def countOk (sendOk : ℕ → Bool) : ℕ → ℕ → ℕ
  | _, 0 => 0
  | i, n + 1 => (if sendOk i then 1 else 0) + countOk sendOk (i + 1) n

/-- C10: the `alerts_sent` counter exposed by `/status` is bumped by
exactly one per alert whose broadcast send succeeds: the final value is
the initial value plus the number of successful broadcasts, hence
monotonically non-decreasing; it does not depend on the interactive UI
recipients, and a single failed broadcast leaves it unchanged while a
successful one adds one; a whole `scan_symbols` cycle never decreases it. -/
theorem alerts_sent_counter_spec :
    ∀ (sendOk : ℕ → Bool) (auth auth2 : List ℕ) (alerts : List Alert) (i c : ℕ) (a : Alert),
      (sendAlertsLoop sendOk auth alerts i c).1 = c + countOk sendOk i alerts.length ∧
      c ≤ (sendAlertsLoop sendOk auth alerts i c).1 ∧
      (sendAlertsLoop sendOk auth alerts i c).1 = (sendAlertsLoop sendOk auth2 alerts i c).1 ∧
      ((sendAlertsLoop sendOk auth [a] i c).1 = if sendOk i then c + 1 else c) ∧
      (∀ (getKlines : String → List Kline) (tickers : List TickerD) (s : ScannerState),
        status_alerts_sent s ≤
          status_alerts_sent (scan_symbols getKlines sendOk auth tickers s).1) := by
  have hmain : ∀ (sendOk : ℕ → Bool) (auth : List ℕ) (alerts : List Alert) (i c : ℕ),
      (sendAlertsLoop sendOk auth alerts i c).1 = c + countOk sendOk i alerts.length := by
    intro sendOk auth alerts
    induction alerts with
    | nil => intro i c; simp [sendAlertsLoop, countOk]
    | cons a rest ih =>
      intro i c
      simp only [sendAlertsLoop, ih, List.length_cons, countOk]
      split_ifs <;> omega
  intro sendOk auth auth2 alerts i c a
  refine ⟨hmain sendOk auth alerts i c, ?_, ?_, ?_, ?_⟩
  · rw [hmain]
    omega
  · rw [hmain, hmain]
  · rw [hmain]
    simp [countOk]
    split_ifs <;> omega
  · intro getKlines tickers s
    unfold scan_symbols
    split_ifs
    · exact le_refl _
    · simpa [status_alerts_sent] using
        (hmain sendOk auth (scanPhase getKlines tickers s.previous_data).2 0
            s.alerts_sent) ▸ Nat.le_add_right _ _

/-- C2 counterexample: an authorized UI user whose watchlist does not
contain the alert symbol still receives the alert — the dispatcher fans
out to every authorized user without consulting watchlists. -/
theorem alert_sent_to_user_without_symbol :
    "BTCUSDT" ∉ ((fun _ : ℕ => ([] : List String)) 7) ∧
      Delivery.toUser 7 (.volume_spike "BTCUSDT" 3 1 200) ∈
        (sendAlertsLoop (fun _ => true) [7] [.volume_spike "BTCUSDT" 3 1 200] 0 0).2 := by
  constructor
  · simp
  · simp [sendAlertsLoop, send_alert_to_ui_users]

/-- C2 (amended): every aggregated alert is sent to the single configured
broadcast destination and fanned out to every authorized UI user — the
watchlists are not consulted; conversely a user delivery only ever goes to
an authorized user and carries one of the cycle's alerts. -/
theorem alerts_delivered_to_broadcast_and_all_ui_users :
    ∀ (sendOk : ℕ → Bool) (auth : List ℕ) (alerts : List Alert) (i c : ℕ) (a : Alert) (u : ℕ),
      (a ∈ alerts →
        ∃ success, Delivery.broadcast a success ∈ (sendAlertsLoop sendOk auth alerts i c).2) ∧
      (a ∈ alerts → u ∈ auth →
        Delivery.toUser u a ∈ (sendAlertsLoop sendOk auth alerts i c).2) ∧
      (Delivery.toUser u a ∈ (sendAlertsLoop sendOk auth alerts i c).2 →
        u ∈ auth ∧ a ∈ alerts) := by
  intro sendOk auth alerts
  induction alerts with
  | nil =>
    intro i c a u
    simp [sendAlertsLoop]
  | cons b rest ih =>
    intro i c a u
    refine ⟨fun ha => ?_, fun ha hu => ?_, fun hd => ?_⟩
    · rcases List.mem_cons.mp ha with hab | har
      · exact ⟨sendOk i, by simp [sendAlertsLoop, hab]⟩
      · rcases ((ih (i + 1) (if sendOk i then c + 1 else c) a u).1 har) with ⟨succ, hmem⟩
        exact ⟨succ, by simp [sendAlertsLoop, List.mem_append, hmem]⟩
    · rcases List.mem_cons.mp ha with hab | har
      · subst hab
        have hmem : Delivery.toUser u a ∈ send_alert_to_ui_users auth a :=
          List.mem_map.mpr ⟨u, hu, rfl⟩
        simp [sendAlertsLoop, List.mem_append, hmem]
      · have := (ih (i + 1) (if sendOk i then c + 1 else c) a u).2.1 har hu
        simp [sendAlertsLoop, List.mem_append, this]
    · have hd2 : Delivery.toUser u a ∈
          Delivery.broadcast b (sendOk i) :: (send_alert_to_ui_users auth b ++
            (sendAlertsLoop sendOk auth rest (i + 1) (if sendOk i then c + 1 else c)).2) := by
        simpa [sendAlertsLoop] using hd
      rcases List.mem_cons.mp hd2 with hb | hrest2
      · exact absurd hb (by simp)
      · rcases List.mem_append.mp hrest2 with hui | htail
        · rcases List.mem_map.mp hui with ⟨x, hx, hxeq⟩
          rw [Delivery.toUser.injEq] at hxeq
          exact ⟨hxeq.1 ▸ hx, by simp [hxeq.2]⟩
        · have hres := (ih (i + 1) (if sendOk i then c + 1 else c) a u).2.2 htail
          exact ⟨hres.1, List.mem_cons_of_mem _ hres.2⟩

/-- Witness for the amended C2: with one alert and two authorized users,
the alert reaches the broadcast sink and both users. -/
theorem alerts_delivered_to_broadcast_and_all_ui_users_witness :
    (∃ success, Delivery.broadcast (.price_pump "BTCUSDT" 105 100 5) success ∈
      (sendAlertsLoop (fun _ => true) [3, 4] [.price_pump "BTCUSDT" 105 100 5] 0 0).2) ∧
      Delivery.toUser 4 (.price_pump "BTCUSDT" 105 100 5) ∈
        (sendAlertsLoop (fun _ => true) [3, 4] [.price_pump "BTCUSDT" 105 100 5] 0 0).2 := by
  have h := alerts_delivered_to_broadcast_and_all_ui_users (fun _ => true) [3, 4]
    [.price_pump "BTCUSDT" 105 100 5] 0 0 (.price_pump "BTCUSDT" 105 100 5) 4
  exact ⟨h.1 (by simp), h.2.1 (by simp) (by simp)⟩


/-- A ticker passing the symbol filter necessarily has a numeric
`lastPrice` field (a missing or malformed one is filtered out). -/
theorem filter_lastPrice_num (t : TickerD) (hf : should_scan_symbol t = true) :
    ∃ p, t.lastPrice = some (PyVal.num p) := by
  have h001 : (0 : ℚ) < MIN_PRICE := by decide
  rcases hl : t.lastPrice with _ | v
  · exfalso
    cases hv : t.volume24h.getD (PyVal.num 0) <;>
      simp [should_scan_symbol, shouldScanSymbolE, hl, hv, pyFloat, h001,
        Bind.bind, Except.bind, Pure.pure, Except.pure] at hf
  · cases v with
    | num p => exact ⟨p, rfl⟩
    | nonNum =>
      exfalso
      cases hv : t.volume24h.getD (PyVal.num 0) <;>
        simp [should_scan_symbol, shouldScanSymbolE, hl, hv, pyFloat,
          Bind.bind, Except.bind, Pure.pure, Except.pure] at hf

/-- When a per-symbol iteration of the scan loop completes without an
exception, the store it returns is the input store with that symbol's
entry overwritten by the current ticker. -/
theorem processTickerE_store_shape (getKlines : String → List Kline) (store : Store)
    (t : TickerD) (st2 : Store) (as : List Alert)
    (h : processTickerE getKlines store t = .ok (st2, as)) :
    st2 = storeWrite store t.symbol t := by
  unfold processTickerE at h
  simp only [Bind.bind, Except.bind, Pure.pure, Except.pure] at h
  split at h
  · cases h
    rfl
  · split at h
    · cases h
    · split at h
      · cases h
      · cases h
        rfl

/-- A ticker passing the symbol filter is processed without exception. -/
theorem processTickerE_ok_of_filter (getKlines : String → List Kline) (store : Store)
    (t : TickerD) (hf : should_scan_symbol t = true) :
    ∃ as, processTickerE getKlines store t = .ok (storeWrite store t.symbol t, as) := by
  obtain ⟨p, hp⟩ := filter_lastPrice_num t hf
  unfold processTickerE
  by_cases hk : (getKlines t.symbol).isEmpty <;>
    simp [hk, hp, dictGet, pyFloat, Bind.bind, Except.bind, Pure.pure, Except.pure]

/-- The scan loop never touches store entries of symbols it does not
process. -/
theorem scanLoop_preserves_other_symbols (getKlines : String → List Kline) :
    ∀ (ts : List TickerD) (store : Store) (s : String),
      (∀ u ∈ ts, u.symbol ≠ s) →
      (scanLoop getKlines ts store).1 s = store s := by
  intro ts
  induction ts with
  | nil => intro store s _; rfl
  | cons b rest ih =>
    intro store s hne
    unfold scanLoop
    cases hb : processTickerE getKlines store b with
    | error e =>
      exact ih store s (fun u hu => hne u (List.mem_cons_of_mem _ hu))
    | ok v =>
      obtain ⟨st1, as⟩ := v
      have hshape := processTickerE_store_shape getKlines store b st1 as hb
      subst hshape
      have hrest := ih (storeWrite store b.symbol b) s
        (fun u hu => hne u (List.mem_cons_of_mem _ hu))
      simp only [hrest, storeWrite]
      rw [if_neg]
      intro hcontra
      exact hne b (List.mem_cons_self b rest) hcontra.symm

/-- Every ticker in a processed batch of filtered tickers with pairwise
distinct symbols ends up written in the store. -/
theorem scanLoop_writes_processed (getKlines : String → List Kline) :
    ∀ (ts : List TickerD) (store : Store) (t : TickerD),
      t ∈ ts →
      (∀ u ∈ ts, should_scan_symbol u = true) →
      (ts.map fun u => u.symbol).Nodup →
      (scanLoop getKlines ts store).1 t.symbol = some t := by
  intro ts
  induction ts with
  | nil => intro store t ht; cases ht
  | cons b rest ih =>
    intro store t ht hall hnd
    obtain ⟨as, hb⟩ :=
      processTickerE_ok_of_filter getKlines store b (hall b (List.mem_cons_self b rest))
    unfold scanLoop
    rw [hb]
    obtain ⟨hnd1, hnd2⟩ :
        (∀ x ∈ rest, ¬ x.symbol = b.symbol) ∧ (rest.map fun u => u.symbol).Nodup := by
      simpa using hnd
    rcases List.mem_cons.mp ht with htb | htr
    · subst htb
      have hothers : ∀ u ∈ rest, u.symbol ≠ t.symbol := fun u hu => hnd1 u hu
      have := scanLoop_preserves_other_symbols getKlines rest
        (storeWrite store t.symbol t) t.symbol hothers
      simp [this, storeWrite]
    · have := ih (storeWrite store b.symbol b) t htr
        (fun u hu => hall u (List.mem_cons_of_mem _ hu)) hnd2
      simpa using this

/-- C1 (amended): after a cycle over tickers with pairwise distinct
symbols, every ticker among the first 50 of the filtered set — the bounded
prefix the loop actually processes — has its State Store entry equal to
that cycle's fetched snapshot, regardless of what the detectors produced;
symbols beyond the 50-symbol cap are not processed and not written. -/
theorem state_store_overwrite_processed_prefix :
    ∀ (getKlines : String → List Kline) (sendOk : ℕ → Bool) (auth : List ℕ)
      (tickers : List TickerD) (s : ScannerState) (t : TickerD),
      (tickers.map fun u => u.symbol).Nodup →
      t ∈ (tickers.filter should_scan_symbol).take 50 →
      ((scan_symbols getKlines sendOk auth tickers s).1).previous_data t.symbol = some t := by
  intro getKlines sendOk auth tickers s t hnd hmem
  have hsub : ((tickers.filter should_scan_symbol).take 50).Sublist tickers :=
    (List.take_sublist 50 (tickers.filter should_scan_symbol)).trans
      (List.filter_sublist tickers)
  have hmemt : t ∈ tickers := hsub.mem hmem
  have hne : ¬ tickers.isEmpty := by
    cases tickers
    · cases hmemt
    · simp
  unfold scan_symbols
  rw [if_neg hne]
  exact scanLoop_writes_processed getKlines _ s.previous_data t hmem
    (fun u hu => List.of_mem_filter ((List.take_sublist _ _).mem hu))
    ((hnd.sublist (hsub.map fun u => u.symbol)))

/-- Witness for the amended C1: a single filtered ticker is written. -/
theorem state_store_overwrite_processed_prefix_witness :
    ((scan_symbols (fun _ => []) (fun _ => true) []
        [⟨"BTCUSDT", some (.num 1), some (.num 2000000)⟩]
        ⟨fun _ => none, 0⟩).1).previous_data "BTCUSDT" =
      some ⟨"BTCUSDT", some (.num 1), some (.num 2000000)⟩ := by
  exact state_store_overwrite_processed_prefix (fun _ => []) (fun _ => true) []
    [⟨"BTCUSDT", some (.num 1), some (.num 2000000)⟩] ⟨fun _ => none, 0⟩
    ⟨"BTCUSDT", some (.num 1), some (.num 2000000)⟩ (by decide) (by decide)

/-- The ticker fixture of the cap counterexample: symbol a string of `i`
letters, price 1, 24h volume exactly the filter minimum. -/
def capTicker (i : ℕ) : TickerD :=
  ⟨⟨List.replicate i 'a'⟩, some (.num 1), some (.num 1000000)⟩

/-- C1 counterexample: with 51 tickers all passing the filter, the 51st
symbol is in the cycle's filtered set, yet after the cycle its State Store
entry is absent — the loop caps processing at the first 50 filtered
symbols. -/
theorem fifty_first_filtered_symbol_not_written :
    capTicker 50 ∈ ((List.range 51).map capTicker).filter should_scan_symbol ∧
      ((scan_symbols (fun _ => []) (fun _ => true) [] ((List.range 51).map capTicker)
          ⟨fun _ => none, 0⟩).1).previous_data (capTicker 50).symbol = none := by
  constructor
  · decide
  · decide

end BybitBot
